import Mathlib

/-
  Shallow embedding of `tools/assembler.py` from the 4-bit-CPU repository.

  The Python source is transliterated into executable Lean definitions:
  strings are Lean `String`s manipulated through their `List Char` data,
  Python's unbounded `int` is `Int`, Python exceptions are `Except AsmErr`.
  Python's bitwise `|` and `<<` on ints are modelled by `pyOr` (two's
  complement bitwise or, the standard semantics of CPython's `int.__or__`)
  and `pyShl` (left shift = multiplication by a power of two).
  Unicode-specific behaviour of `str.upper` and the underscore digit
  grouping accepted by `int()` are outside every reachable input considered
  here and are not modelled.
-/

set_option maxRecDepth 100000

deriving instance DecidableEq for Except

namespace Asm

/-! ### Python string primitives, on the character list of a `String` -/

/-- Characters stripped by Python's `str.strip()` (whitespace). -/
def pySpace (c : Char) : Bool :=
  c == ' ' || c == '\t' || c == '\n' || c == '\r' || c.toNat == 11 || c.toNat == 12

/-- Python `str.strip()`: drop whitespace from both ends. -/
def trimList (l : List Char) : List Char :=
  ((l.dropWhile pySpace).reverse.dropWhile pySpace).reverse

/-- ASCII upper-casing of one character, as `str.upper` does on ASCII. -/
def upChar (c : Char) : Char :=
  if 97 ≤ c.toNat ∧ c.toNat ≤ 122 then Char.ofNat (c.toNat - 32) else c

/-- Python `str.upper()` (ASCII fragment). -/
def pyUpper (s : String) : String :=
  ⟨s.data.map upChar⟩

/-- A separator character of the regex `[,\s]+` used by `re.split` in
`assemble_line`. -/
def isSep (c : Char) : Bool :=
  c == ',' || pySpace c

/-- Worker for `re.split('[,\s]+', s)`.  The second argument is `some cur`
while a token (reversed) is being accumulated and `none` while a separator
run is being skipped. -/
def splitRunsAux (p : Char → Bool) : List Char → Option (List Char) → List (List Char)
  | [], some cur => [cur.reverse]
  | [], none => [[]]
  | c :: cs, some cur =>
    if p c then cur.reverse :: splitRunsAux p cs none
    else splitRunsAux p cs (some (c :: cur))
  | c :: cs, none =>
    if p c then splitRunsAux p cs none
    else splitRunsAux p cs (some [c])

/-- Python `re.split('[,\s]+', s)`: split at maximal separator runs; a
leading or trailing run contributes an empty token, interior runs do not. -/
def pySplit (p : Char → Bool) (l : List Char) : List (List Char) :=
  splitRunsAux p l (some [])

/-- First character test (`str.startswith` with a one-character prefix). -/
def startsWithChar (c : Char) : List Char → Bool
  | [] => false
  | c' :: _ => c' == c

/-- Last character test (`str.endswith` with a one-character suffix). -/
def endsWithChar (c : Char) (l : List Char) : Bool :=
  startsWithChar c l.reverse

/-- Test for a leading `0x` / `0X` (Python `startswith('0x') or startswith('0X')`). -/
def hasHexMark : List Char → Bool
  | '0' :: c :: _ => c == 'x' || c == 'X'
  | _ => false

/-- Test for a leading `0b` / `0B`. -/
def hasBinMark : List Char → Bool
  | '0' :: c :: _ => c == 'b' || c == 'B'
  | _ => false

/-! ### Python integer primitives -/

/-- Value of a digit character in bases up to 16, as `int(s, base)` accepts. -/
def digitVal (c : Char) : Option Nat :=
  if 48 ≤ c.toNat ∧ c.toNat ≤ 57 then some (c.toNat - 48)
  else if 97 ≤ c.toNat ∧ c.toNat ≤ 102 then some (c.toNat - 87)
  else if 65 ≤ c.toNat ∧ c.toNat ≤ 70 then some (c.toNat - 55)
  else none

/-- Accumulating digit-string parser; fails on a non-digit. -/
def parseDigitsAux (base : Nat) : List Char → Nat → Option Nat
  | [], acc => some acc
  | c :: cs, acc =>
    match digitVal c with
    | some d => if d < base then parseDigitsAux base cs (base * acc + d) else none
    | none => none

/-- Parse a non-empty all-digit string in the given base. -/
def parseDigits (base : Nat) (l : List Char) : Option Nat :=
  match l with
  | [] => none
  | _ => parseDigitsAux base l 0

/-- Python `int(s)` (base 10): surrounding whitespace tolerated, one
optional sign, then a non-empty digit string. -/
def pyIntDec (l : List Char) : Option Int :=
  match trimList l with
  | '-' :: rest => (parseDigits 10 rest).map fun n => -(n : Int)
  | '+' :: rest => (parseDigits 10 rest).map fun n => (n : Int)
  | l' => (parseDigits 10 l').map fun n => (n : Int)

/-- Bitwise combination of two naturals, lowest bit first, driven by fuel;
the fuel `a + b + 1` used below is enough because `a / 2 + b / 2 < a + b`
whenever `a + b ≠ 0`. -/
def natBitAux (f : Bool → Bool → Bool) : Nat → Nat → Nat → Nat
  | 0, _, _ => 0
  | fuel + 1, a, b =>
    if a = 0 ∧ b = 0 then 0
    else 2 * natBitAux f fuel (a / 2) (b / 2) + (if f (a % 2 = 1) (b % 2 = 1) then 1 else 0)

/-- Bitwise or on `Nat`. -/
def natLor (a b : Nat) : Nat := natBitAux (fun x y => x || y) (a + b + 1) a b

/-- Bitwise and on `Nat`. -/
def natLand (a b : Nat) : Nat := natBitAux (fun x y => x && y) (a + b + 1) a b

/-- Bitwise difference `a AND (NOT b)` on `Nat`. -/
def natLdiff (a b : Nat) : Nat := natBitAux (fun x y => x && !y) (a + b + 1) a b

/-- Python `a | b` on unbounded ints: two's complement bitwise or, written
by cases on the signs exactly as for `-(x+1) = NOT x`. -/
def pyOr (a b : Int) : Int :=
  match a, b with
  | .ofNat m, .ofNat n => .ofNat (natLor m n)
  | .ofNat m, .negSucc n => .negSucc (natLdiff n m)
  | .negSucc m, .ofNat n => .negSucc (natLdiff m n)
  | .negSucc m, .negSucc n => .negSucc (natLand m n)

/-- Python `a << k` on ints: multiplication by `2 ^ k`. -/
def pyShl (a : Int) (k : Nat) : Int := a * 2 ^ k

/-- The packing expression `(opcode << 12) | (a << 9) | (b << 6) | low`
appearing throughout `encode_instruction` (left associated, as in Python). -/
def pyWord (opcode a b : Int) (low : Int) : Int :=
  pyOr (pyOr (pyOr (pyShl opcode 12) (pyShl a 9)) (pyShl b 6)) low

/-- Python `str(n)` for a non-negative int, fuel-driven. -/
def natToDecAux : Nat → Nat → List Char → List Char
  | 0, _, acc => acc
  | fuel + 1, n, acc =>
    let acc' := Char.ofNat (48 + n % 10) :: acc
    if n < 10 then acc' else natToDecAux fuel (n / 10) acc'

/-- Python `str(n)` for a non-negative int. -/
def natToDec (n : Nat) : String := ⟨natToDecAux (n + 1) n []⟩

/-! ### Python dict primitives (insertion-ordered association list) -/

/-- `d[k] = v` on a Python dict: overwrite in place, else append. -/
def dictSet (d : List (String × Nat)) (k : String) (v : Nat) : List (String × Nat) :=
  match d with
  | [] => [(k, v)]
  | (k', v') :: rest => if k' == k then (k, v) :: rest else (k', v') :: dictSet rest k v

/-- `d.get(k)` / `k in d` on a Python dict. -/
def dictFind (d : List (String × Nat)) (k : String) : Option Nat :=
  match d with
  | [] => none
  | (k', v') :: rest => if k' == k then some v' else dictFind rest k

/-- Python `source.split('\n')` (every occurrence, empties kept). -/
def splitNlAux : List Char → List Char → List String
  | [], cur => [⟨cur.reverse⟩]
  | c :: cs, cur =>
    if c == '\n' then (⟨cur.reverse⟩ : String) :: splitNlAux cs []
    else splitNlAux cs (c :: cur)

/-- Split a source text into its lines, as `source.split('\n')` does. -/
def pySplitLines (source : String) : List String :=
  splitNlAux source.data []

/-! ### The assembler (`tools/assembler.py`) -/

/-- The module-level `OPCODES` dict (assembler.py lines 12-37). -/
def OPCODES (m : String) : Option Nat :=
  if m == "LOADI" then some 0x0
  else if m == "ADD" then some 0x1
  else if m == "SUB" then some 0x2
  else if m == "AND" then some 0x3
  else if m == "OR" then some 0x4
  else if m == "XOR" then some 0x5
  else if m == "STORE" then some 0x6
  else if m == "LOAD" then some 0x7
  else if m == "SHL" then some 0x8
  else if m == "SHR" then some 0x9
  else if m == "MOV" then some 0xA
  else if m == "CMP" then some 0xB
  else if m == "JUMP" then some 0xC
  else if m == "JZ" then some 0xD
  else if m == "JNZ" then some 0xE
  else if m == "NOT" then some 0xF
  else if m == "HALT" then some 0xF
  else if m == "PUSH" then some 0xE
  else if m == "POP" then some 0xE
  else if m == "MUL" then some 0xD
  else if m == "DIV" then some 0xD
  else if m == "IN" then some 0xE
  else if m == "OUT" then some 0xE
  else if m == "RETI" then some 0xF
  else none

/-- The module-level `REGISTERS` dict (assembler.py lines 40-43). -/
def REGISTERS (r : String) : Option Nat :=
  if r == "R0" then some 0
  else if r == "R1" then some 1
  else if r == "R2" then some 2
  else if r == "R3" then some 3
  else if r == "R4" then some 4
  else if r == "R5" then some 5
  else if r == "R6" then some 6
  else if r == "R7" then some 7
  else none

/-- The exceptions the assembler can raise, one constructor per `raise`
site (plus `indexError` for Python's own IndexError on a missing operand
and `malformedInt` for the ValueError of `int()`).  `atAddress` is the
re-raise `Error at address {address}: {e}` in `assemble`'s second pass.
The first `String` of `rangeError` is the wording of the message
(`Immediate value` / `Address` / `Jump address`); the payloads keep the
offending value and the bound 63 that the message text interpolates. -/
inductive AsmErr where
  | unknownInstruction (mnemonic : String)
  | notImplemented (mnemonic : String)
  | invalidRegister (regName : String)
  | rangeError (field : String) (value : Int) (bound : Int)
  | indexError
  | malformedInt (text : String)
  | atAddress (address : Nat) (err : AsmErr)
deriving DecidableEq

/-- Python `operands[i]`: the value, or an IndexError. -/
def getOp (operands : List String) (i : Nat) : Except AsmErr String :=
  match operands.get? i with
  | some s => .ok s
  | none => .error .indexError

/-- `Assembler.parse_register` (assembler.py lines 51-56). -/
def parse_register (s : String) : Except AsmErr Nat :=
  let r : String := pyUpper ⟨trimList s.data⟩
  match REGISTERS r with
  | some n => .ok n
  | none => .error (.invalidRegister r)

/-- `Assembler.parse_immediate` (assembler.py lines 58-74): strip, drop one
enclosing bracket pair, then hex / binary / decimal by prefix. -/
def parse_immediate (s : String) : Except AsmErr Int :=
  let l := trimList s.data
  let l := if startsWithChar '[' l && endsWithChar ']' l then (l.drop 1).dropLast else l
  if hasHexMark l then
    match parseDigits 16 (trimList (l.drop 2)) with
    | some n => .ok (n : Int)
    | none => .error (.malformedInt ⟨l⟩)
  else if hasBinMark l then
    match parseDigits 2 (trimList (l.drop 2)) with
    | some n => .ok (n : Int)
    | none => .error (.malformedInt ⟨l⟩)
  else
    match pyIntDec l with
    | some v => .ok v
    | none => .error (.malformedInt ⟨l⟩)

/-- `Assembler.encode_instruction` (assembler.py lines 76-173), branch for
branch.  Register and opcode values are Python ints, so the word is built
with `pyWord` over `Int`. -/
def encode_instruction (mnemonic : String) (operands : List String) : Except AsmErr Int :=
  let m := pyUpper mnemonic
  match OPCODES m with
  | none => .error (.unknownInstruction m)
  | some opcode =>
    if m == "LOADI" then do
      let rd ← parse_register (← getOp operands 0)
      let imm ← parse_immediate (← getOp operands 1)
      if 63 < imm then .error (.rangeError "Immediate value" imm 63)
      else .ok (pyWord opcode rd 0 imm)
    else if m == "ADD" then do
      let rd ← parse_register (← getOp operands 0)
      let rs1 ← parse_register (← getOp operands 1)
      let _rs2 ← parse_register (← getOp operands 2)
      .ok (pyWord opcode rs1 rd 0)
    else if m == "SUB" then do
      let rd ← parse_register (← getOp operands 0)
      let rs1 ← parse_register (← getOp operands 1)
      let _rs2 ← parse_register (← getOp operands 2)
      .ok (pyWord opcode rs1 rd 0)
    else if m == "STORE" then do
      let rs ← parse_register (← getOp operands 0)
      let addr ← parse_immediate (← getOp operands 1)
      if 63 < addr then .error (.rangeError "Address" addr 63)
      else .ok (pyWord opcode rs 0 addr)
    else if m == "LOAD" then do
      let rd ← parse_register (← getOp operands 0)
      let addr ← parse_immediate (← getOp operands 1)
      if 63 < addr then .error (.rangeError "Address" addr 63)
      else .ok (pyWord opcode rd 0 addr)
    else if m == "JUMP" then do
      let addr ← parse_immediate (← getOp operands 0)
      if 63 < addr then .error (.rangeError "Jump address" addr 63)
      else .ok (pyWord opcode 0 0 addr)
    else if m == "JZ" then do
      let rs ← parse_register (← getOp operands 0)
      let addr ← parse_immediate (← getOp operands 1)
      if 63 < addr then .error (.rangeError "Jump address" addr 63)
      else .ok (pyWord opcode rs 0 addr)
    else if m == "JNZ" then do
      let rs ← parse_register (← getOp operands 0)
      let addr ← parse_immediate (← getOp operands 1)
      if 63 < addr then .error (.rangeError "Jump address" addr 63)
      else .ok (pyWord opcode rs 0 addr)
    else if m == "PUSH" then do
      let rs ← parse_register (← getOp operands 0)
      .ok (pyWord 0xE rs 0 0)
    else if m == "POP" then do
      let rd ← parse_register (← getOp operands 0)
      .ok (pyWord 0xE rd 1 0)
    else if m == "MUL" then do
      let rd ← parse_register (← getOp operands 0)
      let rs1 ← parse_register (← getOp operands 1)
      let _rs2 ← parse_register (← getOp operands 2)
      .ok (pyWord 0xD rs1 rd 0)
    else if m == "HALT" then
      .ok 0xF000
    else if m == "RETI" then
      .ok 0xF001
    else
      .error (.notImplemented m)

/-- The tokenizing tail of `Assembler.assemble_line` (lines 191-196):
`re.split('[,\s]+', line)`, mnemonic upper-cased, operands stripped and
the empty ones discarded. -/
def tokenizeLine (l : List Char) (label : Option String) : String × List String × Option String :=
  let parts := pySplit isSep l
  let mnemonic := pyUpper ⟨parts.headD []⟩
  let operands := ((parts.drop 1).map fun p => (⟨trimList p⟩ : String)).filter fun s => !(s == "")
  (mnemonic, operands, label)

/-- `Assembler.assemble_line` (assembler.py lines 175-196).  Note the
pure-label return `('LABEL', [label], None)`: the label text travels in
the operand slot and the third component is `None`. -/
def assemble_line (line : String) : Option (String × List String × Option String) :=
  let l := trimList (line.data.takeWhile fun c => !(c == ';'))
  if l.isEmpty then none
  else if l.contains ':' then
    let lab : String := ⟨trimList (l.takeWhile fun c => !(c == ':'))⟩
    let rest := trimList ((l.dropWhile fun c => !(c == ':')).drop 1)
    if rest.isEmpty then some ("LABEL", [lab], none)
    else some (tokenizeLine rest (some lab))
  else some (tokenizeLine l none)

/-- First pass of `Assembler.assemble` (lines 202-214): bind each truthy
label (the third tuple slot) to the current address; advance the address
for every line whose mnemonic is not `LABEL`. -/
def firstPass : List String → Nat → List (String × Nat) → List (String × Nat)
  | [], _, labels => labels
  | line :: rest, address, labels =>
    match assemble_line line with
    | none => firstPass rest address labels
    | some (mnemonic, _, label) =>
      let labels' := match label with
        | some lab => if lab == "" then labels else dictSet labels lab address
        | none => labels
      firstPass rest (if mnemonic == "LABEL" then address else address + 1) labels'

/-- The label substitution of the second pass (lines 228-231): an operand
that is a key of the symbol table is replaced by `str` of its address. -/
def substOperand (labels : List (String × Nat)) (op : String) : String :=
  match dictFind labels op with
  | some a => natToDec a
  | none => op

/-- Second pass of `Assembler.assemble` (lines 216-240): skip `LABEL`
entries, substitute labels, encode, and wrap any failure in the
`Error at address {address}` re-raise. -/
def secondPass (labels : List (String × Nat)) : List String → Nat → Except AsmErr (List (Nat × Int))
  | [], _ => .ok []
  | line :: rest, address =>
    match assemble_line line with
    | none => secondPass labels rest address
    | some (mnemonic, operands, _) =>
      if mnemonic == "LABEL" then secondPass labels rest address
      else
        match encode_instruction mnemonic (operands.map (substOperand labels)) with
        | .ok w =>
          match secondPass labels rest (address + 1) with
          | .ok tail => .ok ((address, w) :: tail)
          | .error e => .error e
        | .error e => .error (.atAddress address e)

/-- `Assembler.assemble` on an already split line list. -/
def assembleLines (lines : List String) : Except AsmErr (List (Nat × Int)) :=
  secondPass (firstPass lines 0 []) lines 0

/-- `Assembler.assemble` (assembler.py lines 198-240). -/
def assemble (source : String) : Except AsmErr (List (Nat × Int)) :=
  assembleLines (pySplitLines source)

/-! ### Statement apparatus used by the theorems -/

/-- The canonical name of register `i`, the key of `REGISTERS`. -/
def regName (i : Fin 8) : String := ⟨['R', Char.ofNat (48 + i.val)]⟩

/-- Whether a source line yields an encodable statement: it parses and its
mnemonic is not the `LABEL` marker. -/
def isStmtLine (line : String) : Bool :=
  match assemble_line line with
  | some (m, _, _) => !(m == "LABEL")
  | none => false

/-- The number of non-label statements of a program. -/
def countStmts : List String → Nat
  | [] => 0
  | line :: rest => (if isStmtLine line then 1 else 0) + countStmts rest

/-! ### Shared helper lemmas -/

/-- Reduction of a successful `Except` bind. -/
theorem exBindOk {α β : Type} (a : α) (f : α → Except AsmErr β) :
    (Except.ok a >>= f : Except AsmErr β) = f a := rfl

/-- Reduction of the range guard when the value is within bound. -/
theorem rangeIf_isOk (field : String) (v w : Int) (hv : v ≤ 63) :
    (if 63 < v then (Except.error (AsmErr.rangeError field v 63) : Except AsmErr Int)
     else Except.ok w).isOk = true := by
  rw [if_neg (not_lt.mpr hv)]
  rfl

/-- Reduction of the range guard when the value exceeds the bound. -/
theorem rangeIf_err (field : String) (v w : Int) (hv : 63 < v) :
    (if 63 < v then (Except.error (AsmErr.rangeError field v 63) : Except AsmErr Int)
     else Except.ok w) = .error (AsmErr.rangeError field v 63) := by
  rw [if_pos hv]

/-- The addresses produced by the second pass starting at `a` are the
consecutive block `a, a+1, …` of length the number of statements. -/
theorem secondPass_addresses (labels : List (String × Nat)) (lines : List String) :
    ∀ (a : Nat) (res : List (Nat × Int)),
      secondPass labels lines a = .ok res →
      res.map Prod.fst = List.range' a (countStmts lines) := by
  induction lines with
  | nil =>
    intro a res h
    simp only [secondPass] at h
    injection h with h
    subst h
    simp [countStmts]
  | cons line rest ih =>
    intro a res h
    cases hp : assemble_line line with
    | none =>
      simp only [secondPass, hp] at h
      simpa [countStmts, isStmtLine, hp] using ih a res h
    | some t =>
      obtain ⟨m, ops, lbl⟩ := t
      by_cases hm : (m == "LABEL") = true
      · simp only [secondPass, hp, hm, if_true] at h
        simpa [countStmts, isStmtLine, hp, hm] using ih a res h
      · simp only [secondPass, hp, hm, if_false, Bool.false_eq_true] at h
        cases henc : encode_instruction m (ops.map (substOperand labels)) with
        | error e => rw [henc] at h; exact absurd h (by simp)
        | ok w =>
          rw [henc] at h
          cases hrec : secondPass labels rest (a + 1) with
          | error e => rw [hrec] at h; exact absurd h (by simp)
          | ok tail =>
            rw [hrec] at h
            injection h with h
            subst h
            have := ih (a + 1) tail hrec
            simp [countStmts, isStmtLine, hp, hm, this, Nat.add_comm, List.range'_succ]

/-- The first pass ignores a line that parses to a `LABEL` entry whose
third slot is `none`. -/
theorem firstPass_skip (l : String) (ops : List String)
    (hl : assemble_line l = some ("LABEL", ops, none)) :
    ∀ (pre post : List String) (a : Nat) (tbl : List (String × Nat)),
      firstPass (pre ++ l :: post) a tbl = firstPass (pre ++ post) a tbl := by
  intro pre
  induction pre with
  | nil =>
    intro post a tbl
    simp [firstPass, hl]
  | cons p pre ih =>
    intro post a tbl
    cases hp : assemble_line p with
    | none =>
      simp only [List.cons_append, firstPass, hp]
      exact ih post a tbl
    | some t =>
      obtain ⟨m, o, lb⟩ := t
      simp only [List.cons_append, firstPass, hp]
      exact ih post _ _

/-- The second pass ignores a line that parses to a `LABEL` entry whose
third slot is `none`. -/
theorem secondPass_skip (labels : List (String × Nat)) (l : String) (ops : List String)
    (hl : assemble_line l = some ("LABEL", ops, none)) :
    ∀ (pre post : List String) (a : Nat),
      secondPass labels (pre ++ l :: post) a = secondPass labels (pre ++ post) a := by
  intro pre
  induction pre with
  | nil =>
    intro post a
    simp only [List.nil_append, secondPass, hl]
    rfl
  | cons p pre ih =>
    intro post a
    cases hp : assemble_line p with
    | none =>
      simp only [List.cons_append, secondPass, hp]
      exact ih post a
    | some t =>
      obtain ⟨m, o, lb⟩ := t
      by_cases hm : (m == "LABEL") = true
      · simp only [List.cons_append, secondPass, hp, hm, if_true]
        exact ih post a
      · simp only [List.cons_append, secondPass, hp, hm, if_false, Bool.false_eq_true,
          List.append_eq]
        rw [ih post (a + 1)]

/-! ### Claim theorems -/

/-- C1, counterexample: encoding `POP R3` does not produce the word
`(0xE << 12) | (3 << 6) = 57536` that the claim's layout (fieldA = 0,
fieldB = Rd) would give. -/
theorem c1_pop_encoding_counterexample :
    encode_instruction "POP" ["R3"] = .ok 58944 ∧
    encode_instruction "POP" ["R3"] ≠ .ok 57536 := by decide

/-- C1 (amended): for every register Rd in 0..7, encoding `POP Rd`
produces the word `(0xE << 12) | (Rd << 9) | (1 << 6)`: opcode nibble 0xE,
fieldA (bits 11:9) equal to Rd, fieldB (bits 8:6) fixed to 1, low6 = 0 —
it differs from PUSH by the fieldB slot, with the register in fieldA. -/
theorem c1_pop_encoding_amended :
    ∀ i : Fin 8,
      encode_instruction "POP" [regName i] = .ok (57344 + 512 * (i.val : Int) + 64) := by
  decide

/-- C2, counterexample: a negative resolved immediate is not rejected —
`LOADI R0, -1` resolves the immediate to `-1 < 0` and encoding succeeds
(producing the word `-1`) instead of failing with a range error. -/
theorem c2_low6_range_counterexample :
    parse_immediate "-1" = .ok (-1) ∧ ((-1 : Int) < 0) ∧
    encode_instruction "LOADI" ["R0", "-1"] = .ok (-1) := by decide

/-- C2 (amended): for every instruction placing a resolved value v in the
low-6 slot (LOADI, STORE, LOAD, JUMP, JZ, JNZ), encoding succeeds whenever
v ≤ 63 — including negative v, which is not rejected — and fails with a
range error naming v and the bound 63 exactly when v > 63. -/
theorem c2_low6_range_amended (rStr s : String) (rd : Nat) (v : Int)
    (hr : parse_register rStr = .ok rd) (hi : parse_immediate s = .ok v) :
    ((v ≤ 63 → (encode_instruction "LOADI" [rStr, s]).isOk = true) ∧
      (63 < v → encode_instruction "LOADI" [rStr, s] =
        .error (.rangeError "Immediate value" v 63))) ∧
    ((v ≤ 63 → (encode_instruction "STORE" [rStr, s]).isOk = true) ∧
      (63 < v → encode_instruction "STORE" [rStr, s] =
        .error (.rangeError "Address" v 63))) ∧
    ((v ≤ 63 → (encode_instruction "LOAD" [rStr, s]).isOk = true) ∧
      (63 < v → encode_instruction "LOAD" [rStr, s] =
        .error (.rangeError "Address" v 63))) ∧
    ((v ≤ 63 → (encode_instruction "JUMP" [s]).isOk = true) ∧
      (63 < v → encode_instruction "JUMP" [s] =
        .error (.rangeError "Jump address" v 63))) ∧
    ((v ≤ 63 → (encode_instruction "JZ" [rStr, s]).isOk = true) ∧
      (63 < v → encode_instruction "JZ" [rStr, s] =
        .error (.rangeError "Jump address" v 63))) ∧
    ((v ≤ 63 → (encode_instruction "JNZ" [rStr, s]).isOk = true) ∧
      (63 < v → encode_instruction "JNZ" [rStr, s] =
        .error (.rangeError "Jump address" v 63))) := by
  have eLOADI : encode_instruction "LOADI" [rStr, s] =
      (parse_register rStr >>= fun r => parse_immediate s >>= fun imm =>
        if 63 < imm then Except.error (.rangeError "Immediate value" imm 63)
        else Except.ok (pyWord 0 r 0 imm)) := rfl
  have eSTORE : encode_instruction "STORE" [rStr, s] =
      (parse_register rStr >>= fun r => parse_immediate s >>= fun imm =>
        if 63 < imm then Except.error (.rangeError "Address" imm 63)
        else Except.ok (pyWord 6 r 0 imm)) := rfl
  have eLOAD : encode_instruction "LOAD" [rStr, s] =
      (parse_register rStr >>= fun r => parse_immediate s >>= fun imm =>
        if 63 < imm then Except.error (.rangeError "Address" imm 63)
        else Except.ok (pyWord 7 r 0 imm)) := rfl
  have eJUMP : encode_instruction "JUMP" [s] =
      (parse_immediate s >>= fun imm =>
        if 63 < imm then Except.error (.rangeError "Jump address" imm 63)
        else Except.ok (pyWord 12 0 0 imm)) := rfl
  have eJZ : encode_instruction "JZ" [rStr, s] =
      (parse_register rStr >>= fun r => parse_immediate s >>= fun imm =>
        if 63 < imm then Except.error (.rangeError "Jump address" imm 63)
        else Except.ok (pyWord 13 r 0 imm)) := rfl
  have eJNZ : encode_instruction "JNZ" [rStr, s] =
      (parse_register rStr >>= fun r => parse_immediate s >>= fun imm =>
        if 63 < imm then Except.error (.rangeError "Jump address" imm 63)
        else Except.ok (pyWord 14 r 0 imm)) := rfl
  refine ⟨⟨?_, ?_⟩, ⟨?_, ?_⟩, ⟨?_, ?_⟩, ⟨?_, ?_⟩, ⟨?_, ?_⟩, ⟨?_, ?_⟩⟩ <;> intro hv
  · rw [eLOADI, hr, exBindOk, hi, exBindOk]; exact rangeIf_isOk _ _ _ hv
  · rw [eLOADI, hr, exBindOk, hi, exBindOk]; exact rangeIf_err _ _ _ hv
  · rw [eSTORE, hr, exBindOk, hi, exBindOk]; exact rangeIf_isOk _ _ _ hv
  · rw [eSTORE, hr, exBindOk, hi, exBindOk]; exact rangeIf_err _ _ _ hv
  · rw [eLOAD, hr, exBindOk, hi, exBindOk]; exact rangeIf_isOk _ _ _ hv
  · rw [eLOAD, hr, exBindOk, hi, exBindOk]; exact rangeIf_err _ _ _ hv
  · rw [eJUMP, hi, exBindOk]; exact rangeIf_isOk _ _ _ hv
  · rw [eJUMP, hi, exBindOk]; exact rangeIf_err _ _ _ hv
  · rw [eJZ, hr, exBindOk, hi, exBindOk]; exact rangeIf_isOk _ _ _ hv
  · rw [eJZ, hr, exBindOk, hi, exBindOk]; exact rangeIf_err _ _ _ hv
  · rw [eJNZ, hr, exBindOk, hi, exBindOk]; exact rangeIf_isOk _ _ _ hv
  · rw [eJNZ, hr, exBindOk, hi, exBindOk]; exact rangeIf_err _ _ _ hv

/-- C2, witness: `LOADI R0, 64` fails with the range error citing 64 and
the bound 63, by the amended theorem at that concrete input. -/
theorem c2_low6_range_witness :
    parse_register "R0" = .ok 0 ∧ parse_immediate "64" = .ok 64 ∧ (63 : Int) < 64 ∧
    encode_instruction "LOADI" ["R0", "64"] = .error (.rangeError "Immediate value" 64 63) :=
  ⟨by decide, by decide, by decide,
    ((c2_low6_range_amended "R0" "64" 0 64 (by decide) (by decide)).1).2 (by decide)⟩

/-- C3: assembling the spec's 6-line end-to-end program does NOT yield the
expected stream — the pure-label line `START:` is parsed as
`('LABEL', ['START'], None)`, so the first pass binds nothing (the symbol
table stays empty) and `JUMP START` aborts at address 3 when `START` falls
through to integer parsing.  This evaluates the code at the claim's input
and exhibits the divergence. -/
theorem c3_end_to_end_code_bug :
    firstPass (pySplitLines
      "START:\nLOADI R0, 5\nLOADI R1, 10\nADD R2, R0, R1\nJUMP START\nHALT") 0 [] = [] ∧
    assemble "START:\nLOADI R0, 5\nLOADI R1, 10\nADD R2, R0, R1\nJUMP START\nHALT" =
      .error (.atAddress 3 (.malformedInt "START")) := by decide

/-- C4, counterexample: with a label named `R0` defined, the operand `R0`
of `LOADI R0, 5` is substituted by the label's address before register
matching, so assembly fails with an invalid-register error on the
substituted text `1`; without that label the same instruction assembles to
word 5.  The claim's register-first order would have assembled both. -/
theorem c4_resolution_order_counterexample :
    assembleLines ["LOADI R0, 5", "R0: HALT"] = .error (.atAddress 0 (.invalidRegister "1")) ∧
    assembleLines ["LOADI R0, 5", "X: HALT"] = .ok [(0, 5), (1, 61440)] := by decide

/-- C4 (amended): operand classification is label first, then register,
then literal.  For every register Rd: when a label of the same name is
bound, the operand is replaced by the label's address before register
parsing (so `LOADI Rd, 5` fails on the substituted text `1`); when no such
label exists the register resolves to its index.  A numeric-looking token
bound as a label likewise resolves to the label's address before numeric
parsing (`JUMP 5` jumps to address 1, the binding of label `5`, not to
literal 5). -/
theorem c4_resolution_order_amended :
    (∀ i : Fin 8,
      assembleLines ["LOADI " ++ regName i ++ ", 5", regName i ++ ": HALT"] =
        .error (.atAddress 0 (.invalidRegister "1")) ∧
      assembleLines ["LOADI " ++ regName i ++ ", 5"] =
        .ok [(0, 512 * (i.val : Int) + 5)]) ∧
    assembleLines ["JUMP 5", "5: HALT"] = .ok [(0, 49153), (1, 61440)] ∧
    assembleLines ["JUMP 5"] = .ok [(0, 49157)] := by decide

/-- C5: a successful assembly of a program with N non-label statements
emits exactly N instructions whose addresses are 0..N-1 in strictly
increasing order; pure-label lines are not counted by `countStmts` and
consume no slot. -/
theorem c5_address_contiguity (source : String) (res : List (Nat × Int))
    (h : assemble source = .ok res) :
    res.map Prod.fst = List.range (countStmts (pySplitLines source)) ∧
    res.length = countStmts (pySplitLines source) ∧
    (res.map Prod.fst).Pairwise (· < ·) := by
  have h1 : res.map Prod.fst = List.range' 0 (countStmts (pySplitLines source)) :=
    secondPass_addresses _ _ 0 res h
  refine ⟨?_, ?_, ?_⟩
  · rw [h1, ← List.range_eq_range']
  · have h2 := congrArg List.length h1
    simpa using h2
  · rw [h1, ← List.range_eq_range']
    exact List.pairwise_lt_range _

/-- C5, witness: a three-line program with one pure-label line assembles
to two instructions at addresses 0 and 1. -/
theorem c5_address_contiguity_witness :
    assemble "A:\nLOADI R0, 1\nHALT" = .ok [(0, 1), (1, 61440)] ∧
    ([((0 : Nat), (1 : Int)), (1, 61440)].map Prod.fst =
        List.range (countStmts (pySplitLines "A:\nLOADI R0, 1\nHALT")) ∧
      [((0 : Nat), (1 : Int)), (1, 61440)].length =
        countStmts (pySplitLines "A:\nLOADI R0, 1\nHALT") ∧
      ([((0 : Nat), (1 : Int)), (1, 61440)].map Prod.fst).Pairwise (· < ·)) :=
  ⟨by decide, c5_address_contiguity "A:\nLOADI R0, 1\nHALT" [(0, 1), (1, 61440)] (by decide)⟩

/-- C6: a forward reference to a label defined on its own later line does
NOT resolve — the pure-label line never binds (the symbol table stays
empty), so `JUMP END` aborts with a malformed-integer error instead of
resolving `END` to address 2.  This evaluates the code at a failing input
for the claim. -/
theorem c6_forward_reference_code_bug :
    firstPass ["JUMP END", "HALT", "END:", "HALT"] 0 [] = [] ∧
    assembleLines ["JUMP END", "HALT", "END:", "HALT"] =
      .error (.atAddress 0 (.malformedInt "END")) := by decide

/-- C7: a mnemonic absent from the opcode table fails with an
unknown-instruction error naming the (upper-cased) mnemonic, while every
mnemonic that is in the table but has no encoding branch (AND, OR, XOR,
SHL, SHR, MOV, CMP, NOT, DIV, IN, OUT) fails with the distinct
not-implemented error, whatever the operands; the two error constructors
are never equal. -/
theorem c7_error_taxonomy :
    (∀ (m : String) (ops : List String), OPCODES (pyUpper m) = none →
      encode_instruction m ops = .error (.unknownInstruction (pyUpper m))) ∧
    (∀ ops : List String,
      encode_instruction "AND" ops = .error (.notImplemented "AND") ∧
      encode_instruction "OR" ops = .error (.notImplemented "OR") ∧
      encode_instruction "XOR" ops = .error (.notImplemented "XOR") ∧
      encode_instruction "SHL" ops = .error (.notImplemented "SHL") ∧
      encode_instruction "SHR" ops = .error (.notImplemented "SHR") ∧
      encode_instruction "MOV" ops = .error (.notImplemented "MOV") ∧
      encode_instruction "CMP" ops = .error (.notImplemented "CMP") ∧
      encode_instruction "NOT" ops = .error (.notImplemented "NOT") ∧
      encode_instruction "DIV" ops = .error (.notImplemented "DIV") ∧
      encode_instruction "IN" ops = .error (.notImplemented "IN") ∧
      encode_instruction "OUT" ops = .error (.notImplemented "OUT")) ∧
    (∀ m1 m2 : String, AsmErr.unknownInstruction m1 ≠ AsmErr.notImplemented m2) := by
  refine ⟨?_, ?_, ?_⟩
  · intro m ops h
    simp only [encode_instruction]
    rw [h]
  · intro ops
    exact ⟨rfl, rfl, rfl, rfl, rfl, rfl, rfl, rfl, rfl, rfl, rfl⟩
  · intro m1 m2 h
    exact AsmErr.noConfusion h

/-- C7, witness: `FOO` is not in the opcode table and encoding `FOO R0`
fails with the unknown-instruction error naming FOO. -/
theorem c7_error_taxonomy_witness :
    OPCODES (pyUpper "FOO") = none ∧
    encode_instruction "FOO" ["R0"] = .error (.unknownInstruction "FOO") :=
  ⟨by decide, c7_error_taxonomy.1 "FOO" ["R0"] (by decide)⟩

/-- C8, counterexample: surplus operands are ignored, not rejected —
`LOADI R0, 5, 7` has three operands where LOADI expects two, yet it
encodes successfully to word 5. -/
theorem c8_operand_arity_counterexample :
    encode_instruction "LOADI" ["R0", "5", "7"] = .ok 5 := by decide

/-- C8 (amended): encoding with fewer operands than the mnemonic's arity
fails with the operand (index) error once the supplied prefix parses, but
surplus operands beyond the arity are silently ignored and encoding
succeeds (HALT, of arity 0, succeeds on any operand list). -/
theorem c8_operand_arity_amended (rs : String) (rd : Nat)
    (h : parse_register rs = .ok rd) :
    encode_instruction "LOADI" ([] : List String) = .error .indexError ∧
    encode_instruction "LOADI" [rs] = .error .indexError ∧
    encode_instruction "ADD" [rs, rs] = .error .indexError ∧
    encode_instruction "JZ" [rs] = .error .indexError ∧
    encode_instruction "JUMP" ([] : List String) = .error .indexError ∧
    encode_instruction "PUSH" ([] : List String) = .error .indexError ∧
    encode_instruction "LOADI" [rs, "5", "7"] = .ok (pyWord 0 rd 0 5) ∧
    (∀ ops : List String, encode_instruction "HALT" ops = .ok 61440) := by
  have e1 : encode_instruction "LOADI" [rs] =
      (parse_register rs >>= fun _ => Except.error AsmErr.indexError) := rfl
  have e2 : encode_instruction "ADD" [rs, rs] =
      (parse_register rs >>= fun _ => parse_register rs >>= fun _ =>
        Except.error AsmErr.indexError) := rfl
  have e3 : encode_instruction "JZ" [rs] =
      (parse_register rs >>= fun _ => Except.error AsmErr.indexError) := rfl
  have e4 : encode_instruction "LOADI" [rs, "5", "7"] =
      (parse_register rs >>= fun r => Except.ok (pyWord 0 r 0 5)) := rfl
  refine ⟨by decide, ?_, ?_, ?_, by decide, by decide, ?_, fun ops => rfl⟩
  · rw [e1, h, exBindOk]
  · rw [e2, h, exBindOk, exBindOk]
  · rw [e3, h, exBindOk]
  · rw [e4, h, exBindOk]

/-- C8, witness: the amended theorem at `R2`: one missing operand of
`LOADI` raises the index error, one surplus operand is ignored. -/
theorem c8_operand_arity_witness :
    parse_register "R2" = .ok 2 ∧
    encode_instruction "LOADI" ["R2"] = .error .indexError ∧
    encode_instruction "LOADI" ["R2", "5", "7"] = .ok (pyWord 0 2 0 5) :=
  ⟨by decide, (c8_operand_arity_amended "R2" 2 (by decide)).2.1,
    (c8_operand_arity_amended "R2" 2 (by decide)).2.2.2.2.2.2.1⟩

/-- C9, counterexample: a program defining the label `X` twice assembles
successfully instead of being rejected. -/
theorem c9_duplicate_label_counterexample :
    assembleLines ["X: HALT", "X: HALT"] = .ok [(0, 61440), (1, 61440)] := by decide

/-- C9 (amended): label redefinition is silently accepted; the symbol
table keeps the last binding (rebinding a key with `dictSet` always makes
`dictFind` return the new address). -/
theorem c9_label_redefinition_amended :
    firstPass ["X: HALT", "X: HALT"] 0 [] = [("X", 1)] ∧
    (∀ (tbl : List (String × Nat)) (lab : String) (a : Nat),
      dictFind (dictSet tbl lab a) lab = some a) := by
  constructor
  · decide
  · intro tbl lab a
    induction tbl with
    | nil => simp [dictSet, dictFind]
    | cons kv rest ih =>
      obtain ⟨k, v⟩ := kv
      by_cases hk : (k == lab) = true
      · simp [dictSet, dictFind, hk]
      · simp [dictSet, dictFind, hk, ih]

/-- C10: a comment-stripped line with no colon whose first token
upper-cases to `LABEL` is silently skipped — assembling any program
containing it equals assembling the program with that line removed. -/
theorem c10_label_token_skipped (line : String)
    (h1 : (trimList (line.data.takeWhile fun c => !(c == ';'))).isEmpty = false)
    (h2 : (trimList (line.data.takeWhile fun c => !(c == ';'))).contains ':' = false)
    (h3 : pyUpper ⟨(pySplit isSep
      (trimList (line.data.takeWhile fun c => !(c == ';')))).headD []⟩ = "LABEL") :
    ∀ (pre post : List String),
      assembleLines (pre ++ line :: post) = assembleLines (pre ++ post) := by
  have hline : assemble_line line = some ("LABEL",
      List.filter (fun s => !(s == ""))
        (List.map (fun p => ({ data := trimList p } : String))
          (List.drop 1 (pySplit isSep (trimList (line.data.takeWhile fun c => !(c == ';')))))),
      none) := by
    simp only [assemble_line, tokenizeLine, h1, h2, h3, Bool.false_eq_true, if_false]
  intro pre post
  unfold assembleLines
  rw [firstPass_skip line _ hline pre post 0 [],
      secondPass_skip _ line _ hline pre post 0]

/-- C10, witness: the line `LABEL R0` (no colon, first token LABEL) is
skipped between two instructions. -/
theorem c10_label_token_skipped_witness :
    (trimList (("LABEL R0" : String).data.takeWhile fun c => !(c == ';'))).isEmpty = false ∧
    (trimList (("LABEL R0" : String).data.takeWhile fun c => !(c == ';'))).contains ':' = false ∧
    pyUpper ⟨(pySplit isSep
      (trimList (("LABEL R0" : String).data.takeWhile fun c => !(c == ';')))).headD []⟩ = "LABEL" ∧
    assembleLines (["LOADI R0, 1"] ++ "LABEL R0" :: ["HALT"]) =
      assembleLines (["LOADI R0, 1"] ++ ["HALT"]) :=
  ⟨by decide, by decide, by decide,
    c10_label_token_skipped "LABEL R0" (by decide) (by decide) (by decide)
      ["LOADI R0, 1"] ["HALT"]⟩

end Asm

